import Mathlib

/-!
Shallow embedding of the browser-session automation engine in
`backend/server.js`, together with proofs of the spec's testable
properties.  Pure functions of the source are translated directly;
stateful or I/O-bound code is modelled by explicit state passing, with
each `page.evaluate` / puppeteer call represented by its observable
result (an `Except` when the call may throw).  JavaScript truthiness is
made explicit at each use site: a string is truthy iff non-empty, a
number iff nonzero, an optional field iff present (and truthy).
-/

/-! ## JavaScript string primitives

The JS string methods the source uses are modelled structurally over the
character sequence of the string, so that every definition evaluates by
kernel reduction.  (JS `.length` counts UTF-16 code units; the model
counts characters, which agrees on the inputs the engine handles and is
irrelevant to the comparisons proved here.) -/

/-- JS `s.startsWith(pre)`. -/
def jsStartsWith (s pre : String) : Bool :=
  pre.data.isPrefixOf s.data

/-- Whether `pattern` occurs as a contiguous run of `text`. -/
def containsSub (pattern : List Char) : List Char → Bool
  | [] => pattern.isEmpty
  | c :: rest => pattern.isPrefixOf (c :: rest) || containsSub pattern rest

/-- JS `s.includes(pattern)`. -/
def jsIncludes (s pattern : String) : Bool :=
  containsSub pattern.data s.data

/-- JS `s.replace(/^\.*\x2f, '')`: strip every leading dot. -/
def dropLeadingDots (s : String) : String :=
  ⟨s.data.dropWhile (fun ch => ch = '.')⟩

/-- JS `s.trim()`: strip leading and trailing whitespace. -/
def jsTrim (s : String) : String :=
  ⟨((s.data.dropWhile Char.isWhitespace).reverse.dropWhile Char.isWhitespace).reverse⟩

/-- JS `s.length` (see the module comment on code units). -/
def jsLength (s : String) : Nat :=
  s.data.length

/-! ## Cookies and session files (`loadSession`, server.js 909-1048) -/

/-- A cookie as it appears in the session file.  `expires` is epoch
seconds (`none` when the field is absent); `partitionKey` records
whether the cookie carries a truthy `partitionKey` field (a CHIPS
cookie, not settable through `page.setCookie`). -/
structure Cookie where
  name : String
  value : String
  domain : Option String := none
  expires : Option Int := none
  partitionKey : Bool := false
  deriving Repr, DecidableEq

/-- JS `cookie.expires && cookie.expires < now` (server.js 964): a
cookie is classified expired only when its `expires` field is truthy
(present and nonzero) and strictly below the current epoch seconds. -/
def isExpired (now : Int) (c : Cookie) : Bool :=
  match c.expires with
  | some e => e ≠ 0 && e < now
  | none => false

/-- JS `domain.includes('lmarena.ai')` (server.js 981). -/
def containsLmarena (d : String) : Bool :=
  jsIncludes d "lmarena.ai"

/-- Domain normalization applied to each cookie that survives the
partition and expiry filters (server.js 978-986): the leading dot is
prepended only when the domain is truthy (non-empty), does not already
start with `.`, and contains `lmarena.ai`; `replace(/^\.*\x2f, '')` is
`dropWhile (= '.')`.  The `partitionKey` field is deleted. -/
def normalizeCookie (c : Cookie) : Cookie :=
  let c1 :=
    match c.domain with
    | some d =>
      if d ≠ "" && !(jsStartsWith d ".") && containsLmarena d then
        { c with domain := some ("." ++ dropLeadingDots d) }
      else c
    | none => c
  { c1 with partitionKey := false }

/-- Result of installing a cookie batch: the cookies handed to
`page.setCookie`, the names collected in the expired warning list, and
the count of partitioned cookies skipped. -/
structure ApplyOutcome where
  installed : List Cookie
  expiredNames : List String
  skippedPartitionedCount : Nat
  deriving Repr, DecidableEq

/-- The pure cookie pipeline of `loadSession` (server.js 952-989):
filter out partitioned cookies, split the rest into valid and expired
by `isExpired`, normalize and install the valid ones. -/
def applyCookies (cookies : List Cookie) (now : Int) : ApplyOutcome :=
  let setableCookies := cookies.filter (fun c => !c.partitionKey)
  let validCookies := setableCookies.filter (fun c => !(isExpired now c))
  let expiredCookies := (setableCookies.filter (fun c => isExpired now c)).map (fun c => c.name)
  { installed := validCookies.map normalizeCookie
    expiredNames := expiredCookies
    skippedPartitionedCount := cookies.length - setableCookies.length }

/-- Parsed shapes a session file can take (server.js 921-937): a bare
cookie array, an object (whose `cookies` field is `some` exactly when
present as an array, `localStorage` `some` when present), or anything
else. -/
inductive SessionFileData where
  | arr (cookies : List Cookie)
  | obj (cookies : Option (List Cookie)) (localStorage : Option (List (String × String)))
        (savedAt : Option String)
  | malformed
  deriving Repr

/-- Format dispatch of `loadSession` (server.js 924-937): a bare array
is taken as the cookie list with empty storage; an object needs a
`cookies` array and defaults `localStorage` to empty; anything else is
an unknown format. -/
def parseSessionFile : SessionFileData →
    Option (List Cookie × List (String × String) × Option String)
  | .arr cs => some (cs, [], none)
  | .obj (some cs) ls sa => some (cs, ls.getD [], sa)
  | .obj none _ _ => none
  | .malformed => none

/-- The observable outcome of `loadSession` on a parsed file: the cookie
install outcome and the local-storage writes replayed in-page.  The
source guards both steps behind emptiness checks, which only skip
no-op work, so the model applies them unconditionally. -/
def loadSession (fileData : SessionFileData) (now : Int) :
    Option (ApplyOutcome × List (String × String)) :=
  match parseSessionFile fileData with
  | none => none
  | some (cookies, ls, _) => some (applyCookies cookies now, ls)

/-! ## Transcript helpers (`getLatestAI`, `getNthAI`, server.js 383-399) -/

/-- Downward scan of `getLatestAI`: `getLatestAIAux ms k` inspects
indices `k-1, k-2, ..., 0` and returns the entry at the first odd one. -/
def getLatestAIAux (messages : List String) : Nat → Option String
  | 0 => none
  | i + 1 => if i % 2 = 1 then messages[i]? else getLatestAIAux messages i

/-- `getLatestAI` (server.js 383-391): scan from the bottom upward and
return the entry at the first odd index met, `none` if there is none. -/
def getLatestAI (messages : List String) : Option String :=
  getLatestAIAux messages messages.length

/-- `getNthAI` (server.js 395-399): `index = 2n - 1`; out-of-range
(negative or beyond the transcript) yields `none`. -/
def getNthAI (messages : List String) (n : Int) : Option String :=
  let index : Int := 2 * n - 1
  if index < 0 ∨ (messages.length : Int) ≤ index then none
  else messages[index.toNat]?

/-! ## Reply stabilization (`waitForResponseStable`, server.js 414-438) -/

/-- One poll of the stabilization loop: the transcript extracted by
`getAllMessages` and the `isStreaming` DOM signal. -/
structure PollObs where
  messages : List String
  streaming : Bool
  deriving Repr, DecidableEq

/-- JS `if (latestAI && !streaming)` (server.js 424): the poll is
eligible iff the latest assistant text exists, is non-empty, and the
streaming signal is off; the eligible text otherwise. -/
def latestEligible (p : PollObs) : Option String :=
  match getLatestAI p.messages with
  | some s => if s ≠ "" && !p.streaming then some s else none
  | none => none

/-- The polling loop of `waitForResponseStable` (server.js 419-435)
over a finite poll trace (the polls that fit before the timeout):
`some ms` is an early return with transcript `ms`, `none` reaching the
timeout.  `last` and `stableCount` are the loop's mutable state. -/
def wfrsGo : List PollObs → String → Nat → Option (List String)
  | [], _, _ => none
  | p :: rest, last, stableCount =>
    match getLatestAI p.messages with
    | some s =>
      if s ≠ "" && !p.streaming then
        if s = last then
          if 2 ≤ stableCount + 1 then some p.messages
          else wfrsGo rest last (stableCount + 1)
        else wfrsGo rest s 1
      else wfrsGo rest last stableCount
    | none => wfrsGo rest last stableCount

/-- `waitForResponseStable` (server.js 414-438): run the loop on the
trace; on timeout return the final `getAllMessages` extraction
(`finalMessages`) instead of throwing. -/
def waitForResponseStable (polls : List PollObs) (finalMessages : List String) : List String :=
  match wfrsGo polls "" 0 with
  | some ms => ms
  | none => finalMessages

/-- Whether two consecutive polls of the trace are both eligible
(non-empty latest text, streaming off) with the same text — the
stability condition as the spec sentence words it. -/
def hasConsecutiveStableB : List PollObs → Bool
  | p :: q :: rest =>
    (match latestEligible p, latestEligible q with
     | some s, some t => s = t
     | _, _ => false) || hasConsecutiveStableB (q :: rest)
  | _ => false

/-- Adjacent duplicate in a string list, seeded with a previous value. -/
def hasAdjDupFrom (x : String) : List String → Bool
  | [] => false
  | y :: ys => x = y || hasAdjDupFrom y ys

/-- Adjacent duplicate in a string list. -/
def hasAdjDup : List String → Bool
  | [] => false
  | x :: xs => hasAdjDupFrom x xs

/-- A trace on which the loop returns early although no two consecutive
polls agree on the latest text: poll 2 repeats poll 0's text while the
intervening poll is streaming with a different text. -/
def c1Polls : List PollObs :=
  [⟨["u", "alpha"], false⟩, ⟨["u", "beta"], true⟩, ⟨["u", "alpha"], false⟩]

/-! ## Single-flight initialization (`initializeBrowser`, server.js 697-906) -/

/-- What a call to `initializeBrowser` hands back: the already-live
handle, or the (possibly null) `initializationPromise`. -/
inductive AcquireResult where
  | handle
  | promiseOf (id : Option Nat)
  deriving Repr, DecidableEq

/-- The module-level mutable state around `initializeBrowser`
(server.js 356-361) plus instrumentation: `pageClosedProbe` is the
result of `globalPage.isClosed()` (`none` models the probe throwing),
`launchCount` counts `puppeteer.launch` invocations, `nextPromiseId`
names the next initialization promise. -/
structure BrowserState where
  isInitializing : Bool
  initializationPromise : Option Nat
  browserPresent : Bool
  pagePresent : Bool
  pageClosedProbe : Option Bool
  launchCount : Nat
  nextPromiseId : Nat
  deriving Repr, DecidableEq

/-- The synchronous prefix of `initializeBrowser` (server.js 698-717 up
to `await puppeteer.launch`), which JavaScript run-to-completion makes
atomic: return the in-flight promise when `isInitializing`, the live
handle when browser and page exist and the page is not closed, else set
`isInitializing`, create the initialization promise — whose body calls
`puppeteer.launch` before its first suspension — and return it. -/
def initializeBrowserStep (g : BrowserState) : BrowserState × AcquireResult :=
  if g.isInitializing then (g, .promiseOf g.initializationPromise)
  else if g.browserPresent ∧ g.pagePresent ∧ g.pageClosedProbe = some false then (g, .handle)
  else
    let id := g.nextPromiseId
    ({ g with
        isInitializing := true
        initializationPromise := some id
        launchCount := g.launchCount + 1
        nextPromiseId := id + 1 },
     .promiseOf (some id))

/-! ## Send confirmation (`/chat` send block, server.js 1505-1619) -/

/-- The in-page confirmation probe (server.js 1518-1528): the input
surface counts as cleared when its trimmed value is empty or strictly
shorter than the message that was typed. -/
def sendConfirmed (inputValue : String) (sentMessage : String) : Bool :=
  jsTrim inputValue = "" || jsLength (jsTrim inputValue) < jsLength sentMessage

/-- Outcome of one click strategy: the puppeteer call threw, or the
verification ran and observed the input surface's value (`none` when no
`textarea`/contenteditable was found). -/
inductive ClickOutcome where
  | raised
  | observed (inputValue : Option String)
  deriving Repr, DecidableEq

/-- Whether a verification observation confirms delivery: an absent
input surface never confirms. -/
def verifyConfirms (sentMessage : String) : Option String → Bool
  | some v => sendConfirmed v sentMessage
  | none => false

/-- The escalating click block (server.js 1508-1589): methods 1-3 run in
order inside one try/catch, each followed by its verification; a raised
exception abandons the remaining methods with `messageSent` still
false.  Without a send button the block is skipped entirely. -/
def clickPhase (sentMessage : String) (buttonFound : Bool)
    (m1 m2 m3 : ClickOutcome) : Bool :=
  if buttonFound then
    match m1 with
    | .raised => false
    | .observed v1 =>
      if verifyConfirms sentMessage v1 then true
      else
        match m2 with
        | .raised => false
        | .observed v2 =>
          if verifyConfirms sentMessage v2 then true
          else
            match m3 with
            | .raised => false
            | .observed v3 => verifyConfirms sentMessage v3
  else false

/-- The whole send-confirmation block (server.js 1505-1619): if no click
strategy confirmed, press Enter (`enterObs`: the press/verification may
itself throw) and verify; with still no confirmation, throw the
"Failed to send message" error. -/
def dispatchSend (sentMessage : String) (buttonFound : Bool)
    (m1 m2 m3 : ClickOutcome) (enterObs : Except String (Option String)) :
    Except String Unit :=
  if clickPhase sentMessage buttonFound m1 m2 m3 then .ok ()
  else
    match enterObs with
    | .error e => .error e
    | .ok v =>
      if verifyConfirms sentMessage v then .ok ()
      else .error "Failed to send message - send button not clicked"

/-! ## Challenge resolution (`checkSecurityVerification`, server.js 617-694) -/

/-- The polling loop of `checkSecurityVerification` (server.js 638-683)
over a finite trace: each iteration evaluates `stillPresent` and, when
that is false, `finalCheck`; either evaluation may throw.  An exhausted
trace is the 120s timeout, which falls through to `return true`. -/
def cfLoop : List (Except String Bool × Except String Bool) → Except String Bool
  | [] => .ok true
  | (stillPresent, finalCheck) :: rest =>
    match stillPresent with
    | .error e => .error e
    | .ok true => cfLoop rest
    | .ok false =>
      match finalCheck with
      | .error e => .error e
      | .ok true => .ok true
      | .ok false => cfLoop rest

/-- `checkSecurityVerification` (server.js 617-694): the initial
detection evaluate, then the loop, all inside a try/catch whose handler
returns true; every normal exit also returns true. -/
def checkSecurityVerification (initialDetect : Except String Bool)
    (polls : List (Except String Bool × Except String Bool)) : Except String Bool :=
  let body : Except String Bool :=
    match initialDetect with
    | .error e => .error e
    | .ok false => .ok true
    | .ok true => cfLoop polls
  match body with
  | .ok b => .ok b
  | .error _ => .ok true

/-! ## Helper lemmas -/

theorem filter_filter_and (l : List Cookie) (p q : Cookie → Bool) :
    (l.filter p).filter q = l.filter (fun a => p a && q a) := by
  rw [List.filter_filter]
  exact List.filter_congr (fun a _ => Bool.and_comm _ _)

theorem getLatestAIAux_closed (ms : List String) (k : Nat) :
    getLatestAIAux ms k =
      if k < 2 then none else if k % 2 = 0 then ms[k - 1]? else ms[k - 2]? := by
  induction k with
  | zero => simp [getLatestAIAux]
  | succ k ih =>
    rw [getLatestAIAux]
    by_cases h : k % 2 = 1
    · have h2 : ¬ (k + 1 < 2) := by omega
      have h3 : (k + 1) % 2 = 0 := by omega
      simp [h, h2, h3]
    · rw [if_neg h, ih]
      rcases Nat.eq_zero_or_pos k with hk | hk
      · subst hk; simp
      · have hk2 : 2 ≤ k := by omega
        have h4 : ¬ (k < 2) := by omega
        have h5 : ¬ (k + 1 < 2) := by omega
        have h6 : k % 2 = 0 := by omega
        have h7 : ¬ ((k + 1) % 2 = 0) := by omega
        simp [h4, h5, h6, h7]

theorem getLatestAI_none_iff (t : List String) :
    getLatestAI t = none ↔ t.length < 2 := by
  rw [getLatestAI, getLatestAIAux_closed]
  by_cases h : t.length < 2
  · simp [h]
  · constructor
    · intro hn
      exfalso
      by_cases hp : t.length % 2 = 0
      · rw [if_neg h, if_pos hp] at hn
        rw [List.getElem?_eq_none_iff] at hn
        omega
      · rw [if_neg h, if_neg hp] at hn
        rw [List.getElem?_eq_none_iff] at hn
        omega
    · intro hn
      exact absurd hn h

/-- C6: `latestAssistantTurn` (`getLatestAI`) returns the entry at the
largest odd 0-based index of the transcript, and `none` when no odd
index exists; in particular it is `none` on `[]`, `some "a1"` on
`["u1", "a1"]`, and `none` on `["u1"]`. -/
theorem getLatestAI_spec (t : List String) :
    ((getLatestAI t = none) ↔ ∀ i, i < t.length → i % 2 = 0)
    ∧ (∀ i, i < t.length → i % 2 = 1 →
        (∀ j, j < t.length → j % 2 = 1 → j ≤ i) → getLatestAI t = t[i]?)
    ∧ getLatestAI ([] : List String) = none
    ∧ getLatestAI ["u1", "a1"] = some "a1"
    ∧ getLatestAI ["u1"] = none := by
  refine ⟨?_, ?_, by decide, by decide, by decide⟩
  · rw [getLatestAI_none_iff]
    constructor
    · intro h i hi
      omega
    · intro h
      by_contra hlen
      have h1 : 1 < t.length := by omega
      have := h 1 h1
      omega
  · intro i hi hodd hmax
    rw [getLatestAI, getLatestAIAux_closed]
    have h2 : ¬ (t.length < 2) := by omega
    by_cases hp : t.length % 2 = 0
    · have hieq : i = t.length - 1 := by
        have := hmax (t.length - 1) (by omega) (by omega)
        omega
      rw [if_neg h2, if_pos hp, hieq]
    · have hieq : i = t.length - 2 := by
        have := hmax (t.length - 2) (by omega) (by omega)
        omega
      rw [if_neg h2, if_neg hp, hieq]

/-- Witness for C6: the general clause applied at a concrete transcript
whose largest odd index is 3. -/
theorem getLatestAI_spec_witness :
    getLatestAI ["u1", "a1", "u2", "a2"] = (["u1", "a1", "u2", "a2"] : List String)[3]? :=
  (getLatestAI_spec ["u1", "a1", "u2", "a2"]).2.1 3 (by decide) (by decide) (by decide)

/-- C7: `nthAssistantTurn` (`getNthAI`) returns the transcript entry at
0-based index `2n - 1` for `n ≥ 1` when in range and `none` otherwise
(`t[i]?` is itself `none` out of range, so one equation states both);
for a transcript of length 5 and `n = 2` it is the entry at index 3. -/
theorem getNthAI_spec (t : List String) (n : Int) (h : 1 ≤ n) :
    getNthAI t n = t[(2 * n - 1).toNat]?
    ∧ (t.length = 5 → getNthAI t 2 = t[3]?) := by
  constructor
  · rw [getNthAI]
    by_cases hlen : (t.length : Int) ≤ 2 * n - 1
    · rw [if_pos (Or.inr hlen)]
      symm
      rw [List.getElem?_eq_none_iff]
      omega
    · rw [if_neg (by omega)]
  · intro hl
    rw [getNthAI]
    rw [if_neg (by omega)]
    rfl

/-- Witness for C7 at `n = 2` on a transcript of length 5. -/
theorem getNthAI_spec_witness :
    getNthAI ["u1", "a1", "u2", "a2", "u3"] 2 = (["u1", "a1", "u2", "a2", "u3"] : List String)[3]?
    ∧ getNthAI ["u1", "a1", "u2", "a2", "u3"] 2 = some "a2" :=
  ⟨(getNthAI_spec ["u1", "a1", "u2", "a2", "u3"] 2 (by norm_num)).2 (by decide), by decide⟩

theorem cfLoop_ok_or_error (polls : List (Except String Bool × Except String Bool)) :
    cfLoop polls = .ok true ∨ ∃ e, cfLoop polls = .error e := by
  induction polls with
  | nil => exact Or.inl rfl
  | cons p rest ih =>
    obtain ⟨stillPresent, finalCheck⟩ := p
    rcases stillPresent with e | b
    · exact Or.inr ⟨e, rfl⟩
    · cases b
      · rcases finalCheck with e | b2
        · exact Or.inr ⟨e, rfl⟩
        · cases b2
          · simpa [cfLoop] using ih
          · exact Or.inl rfl
      · simpa [cfLoop] using ih

/-- C9: `resolveChallenge` (`checkSecurityVerification`) never
propagates an error: whether the challenge resolves, the polling loop
exhausts its 120s budget with the challenge still present, or any
in-page evaluation throws, the function returns normally (in fact it
always returns `true`). -/
theorem checkSecurityVerification_never_throws (initialDetect : Except String Bool)
    (polls : List (Except String Bool × Except String Bool)) :
    checkSecurityVerification initialDetect polls = .ok true := by
  unfold checkSecurityVerification
  rcases initialDetect with e | b
  · rfl
  · cases b
    · rfl
    · rcases cfLoop_ok_or_error polls with h | ⟨e, h⟩ <;> simp [h]

/-- C2: with the browser cold (not initializing, no live browser/page),
two `initializeBrowser` calls in sequence — the only interleaving
JavaScript run-to-completion allows for the function's synchronous
prefix — hand back the same in-flight initialization promise, and
exactly one browser launch is performed. -/
theorem initializeBrowser_single_flight (g : BrowserState)
    (hInit : g.isInitializing = false) (hB : g.browserPresent = false) :
    (initializeBrowserStep g).2 = .promiseOf (some g.nextPromiseId)
    ∧ (initializeBrowserStep (initializeBrowserStep g).1).2 = (initializeBrowserStep g).2
    ∧ (initializeBrowserStep (initializeBrowserStep g).1).1.launchCount = g.launchCount + 1 := by
  simp [initializeBrowserStep, hInit, hB]

/-- Witness for C2 at the concrete cold startup state. -/
theorem initializeBrowser_single_flight_witness :
    (initializeBrowserStep
        { isInitializing := false, initializationPromise := none, browserPresent := false,
          pagePresent := false, pageClosedProbe := none, launchCount := 0,
          nextPromiseId := 0 }).2 = .promiseOf (some 0) :=
  (initializeBrowser_single_flight
    { isInitializing := false, initializationPromise := none, browserPresent := false,
      pagePresent := false, pageClosedProbe := none, launchCount := 0, nextPromiseId := 0 }
    rfl rfl).1

/-- C3: the `/chat` send block succeeds only when some strategy's
verification confirmed delivery (input surface emptied or shrunk below
the typed message), and when neither the three click strategies nor the
Enter fallback confirms, it throws the descriptive "Failed to send
message" error — a message is never silently dropped. -/
theorem dispatchSend_no_silent_drop (sentMessage : String) (buttonFound : Bool)
    (m1 m2 m3 : ClickOutcome) (enterObs : Except String (Option String)) :
    (dispatchSend sentMessage buttonFound m1 m2 m3 enterObs = .ok () →
      clickPhase sentMessage buttonFound m1 m2 m3 = true
      ∨ ∃ v, enterObs = .ok v ∧ verifyConfirms sentMessage v = true)
    ∧ (clickPhase sentMessage buttonFound m1 m2 m3 = false →
        ∀ v, enterObs = .ok v → verifyConfirms sentMessage v = false →
        dispatchSend sentMessage buttonFound m1 m2 m3 enterObs
          = .error "Failed to send message - send button not clicked") := by
  constructor
  · intro hok
    unfold dispatchSend at hok
    by_cases hc : clickPhase sentMessage buttonFound m1 m2 m3
    · exact Or.inl hc
    · rw [if_neg hc] at hok
      rcases enterObs with e | v
      · exact absurd hok (by simp)
      · by_cases hv : verifyConfirms sentMessage v
        · exact Or.inr ⟨v, rfl, hv⟩
        · exfalso
          simp [hv] at hok
  · intro hc v hv hvc
    subst hv
    unfold dispatchSend
    rw [if_neg (by simp [hc])]
    simp [hvc]

/-- Witness for C3: a send attempt where the button is found, all three
click verifications see the input still holding the full message, and
so does the Enter fallback — the block throws the descriptive error. -/
theorem dispatchSend_no_silent_drop_witness :
    dispatchSend "hello world" true (.observed (some "hello world"))
        (.observed (some "hello world")) (.observed (some "hello world"))
        (.ok (some "hello world"))
      = .error "Failed to send message - send button not clicked" :=
  (dispatchSend_no_silent_drop "hello world" true (.observed (some "hello world"))
      (.observed (some "hello world")) (.observed (some "hello world"))
      (.ok (some "hello world"))).2
    (by decide) (some "hello world") rfl (by decide)

theorem applyCookies_installed_eq (cs : List Cookie) (now : Int) :
    (applyCookies cs now).installed
      = (cs.filter (fun k => !k.partitionKey && !(isExpired now k))).map normalizeCookie := by
  unfold applyCookies
  dsimp only
  rw [filter_filter_and]

theorem applyCookies_expired_eq (cs : List Cookie) (now : Int) :
    (applyCookies cs now).expiredNames
      = (cs.filter (fun k => !k.partitionKey && isExpired now k)).map (fun c => c.name) := by
  unfold applyCookies
  dsimp only
  rw [filter_filter_and]

theorem mem_installed_of_valid (cs : List Cookie) (now : Int) (c : Cookie)
    (hc : c ∈ cs) (hp : c.partitionKey = false) (he : isExpired now c = false) :
    normalizeCookie c ∈ (applyCookies cs now).installed := by
  rw [applyCookies_installed_eq]
  exact List.mem_map_of_mem _ (List.mem_filter.mpr ⟨hc, by simp [hp, he]⟩)

theorem name_mem_expired_of_expired (cs : List Cookie) (now : Int) (c : Cookie)
    (hc : c ∈ cs) (hp : c.partitionKey = false) (he : isExpired now c = true) :
    c.name ∈ (applyCookies cs now).expiredNames := by
  rw [applyCookies_expired_eq]
  exact List.mem_map_of_mem _ (List.mem_filter.mpr ⟨hc, by simp [hp, he]⟩)

/-- The cookie the C4 claim fails on: non-partitioned, expiry timestamp
epoch second 0. -/
def c4Cookie : Cookie := { name := "sessionid", value := "v", expires := some 0 }

/-- C4 counterexample: `c4Cookie`'s expiry timestamp 0 is strictly
earlier than the current time 1700000000, yet `loadSession` installs it
and reports nothing in the skipped list — the filter first tests JS
truthiness of `expires`, and 0 is falsy. -/
theorem applyCookies_expired_counterexample :
    c4Cookie.partitionKey = false
    ∧ c4Cookie.expires = some 0
    ∧ ((0 : Int) < 1700000000)
    ∧ (applyCookies [c4Cookie] 1700000000).installed = [c4Cookie]
    ∧ (applyCookies [c4Cookie] 1700000000).expiredNames = [] := by
  decide

/-- C4 (amended): a non-partitioned cookie is excluded and reported in
the skipped list exactly when its expiry field is truthy (present and
nonzero) and strictly earlier than the current time; every other
non-partitioned cookie of the batch is still installed (normalized),
and the installed set is exactly the normalized non-partitioned
non-expired cookies. -/
theorem applyCookies_expiry_filter (cs : List Cookie) (now : Int) (c : Cookie)
    (hc : c ∈ cs) (hp : c.partitionKey = false) :
    (isExpired now c = true ↔ ∃ e, c.expires = some e ∧ e ≠ 0 ∧ e < now)
    ∧ (isExpired now c = true → c.name ∈ (applyCookies cs now).expiredNames)
    ∧ (isExpired now c = false → normalizeCookie c ∈ (applyCookies cs now).installed)
    ∧ (applyCookies cs now).installed
        = (cs.filter (fun k => !k.partitionKey && !(isExpired now k))).map normalizeCookie := by
  refine ⟨?_, fun he => name_mem_expired_of_expired cs now c hc hp he,
    fun he => mem_installed_of_valid cs now c hc hp he, applyCookies_installed_eq cs now⟩
  cases hce : c.expires with
  | none => simp [isExpired, hce]
  | some e =>
    simp only [isExpired, hce, Bool.and_eq_true, decide_eq_true_eq, Option.some.injEq]
    constructor
    · rintro ⟨h1, h2⟩
      exact ⟨e, rfl, by simpa using h1, by simpa using h2⟩
    · rintro ⟨e2, he2, h1, h2⟩
      subst he2
      exact ⟨by simpa using h1, by simpa using h2⟩

/-- Witness for C4 (amended): in a batch holding one genuinely expired
cookie and one fresh one, the expired cookie's name is reported and the
fresh cookie is installed. -/
theorem applyCookies_expiry_filter_witness :
    "old" ∈ (applyCookies
        [{ name := "old", value := "v", expires := some 50 },
         { name := "new", value := "v", expires := some 200 }] 100).expiredNames
    ∧ normalizeCookie { name := "new", value := "v", expires := some 200 }
        ∈ (applyCookies
            [{ name := "old", value := "v", expires := some 50 },
             { name := "new", value := "v", expires := some 200 }] 100).installed :=
  ⟨(applyCookies_expiry_filter
      [{ name := "old", value := "v", expires := some 50 },
       { name := "new", value := "v", expires := some 200 }] 100
      { name := "old", value := "v", expires := some 50 } (by decide) rfl).2.1 (by decide),
   (applyCookies_expiry_filter
      [{ name := "old", value := "v", expires := some 50 },
       { name := "new", value := "v", expires := some 200 }] 100
      { name := "new", value := "v", expires := some 200 } (by decide) rfl).2.2.1 (by decide)⟩

/-- C10: a cookie whose `expires` field is absent or equals 0 (falsy)
is never classified expired — the filter removes a cookie only when
`expires` is truthy and strictly below the current epoch seconds — so
such a cookie, when non-partitioned, is installed with the valid ones. -/
theorem applyCookies_falsy_expiry (cs : List Cookie) (now : Int) (c : Cookie)
    (hc : c ∈ cs) (hf : c.expires = none ∨ c.expires = some 0) :
    isExpired now c = false
    ∧ (c.partitionKey = false → normalizeCookie c ∈ (applyCookies cs now).installed)
    ∧ (∀ k : Cookie, isExpired now k = true → ∃ e, k.expires = some e ∧ e ≠ 0 ∧ e < now) := by
  have hexp : isExpired now c = false := by
    rcases hf with h | h <;> simp [isExpired, h]
  refine ⟨hexp, fun hp => mem_installed_of_valid cs now c hc hp hexp, ?_⟩
  intro k hk
  cases hke : k.expires with
  | none => simp [isExpired, hke] at hk
  | some e =>
    simp only [isExpired, hke, Bool.and_eq_true, decide_eq_true_eq] at hk
    exact ⟨e, rfl, by simpa using hk.1, hk.2⟩

/-- Witness for C10: a cookie with no `expires` field and a cookie with
`expires = 0` are both classified unexpired and installed. -/
theorem applyCookies_falsy_expiry_witness :
    isExpired 1700000000 { name := "nm", value := "v" } = false
    ∧ normalizeCookie { name := "nm", value := "v" }
        ∈ (applyCookies [{ name := "nm", value := "v" }, c4Cookie] 1700000000).installed
    ∧ isExpired 1700000000 c4Cookie = false :=
  ⟨(applyCookies_falsy_expiry [{ name := "nm", value := "v" }, c4Cookie] 1700000000
      { name := "nm", value := "v" } (by decide) (Or.inl rfl)).1,
   (applyCookies_falsy_expiry [{ name := "nm", value := "v" }, c4Cookie] 1700000000
      { name := "nm", value := "v" } (by decide) (Or.inl rfl)).2.1 rfl,
   (applyCookies_falsy_expiry [{ name := "nm", value := "v" }, c4Cookie] 1700000000
      c4Cookie (by decide) (Or.inr rfl)).1⟩

/-- The cookie the C8 claim fails on: a domain string that does not
contain `lmarena.ai`. -/
def c8Cookie : Cookie := { name := "sid", value := "x", domain := some "example.com" }

/-- C8 counterexample: `c8Cookie` survives both filters and carries the
domain `example.com`, yet it is installed with its domain unchanged and
without a leading dot — the code prepends the dot only to domains
containing `lmarena.ai`. -/
theorem domain_normalization_counterexample :
    c8Cookie.partitionKey = false
    ∧ isExpired 100 c8Cookie = false
    ∧ c8Cookie.domain = some "example.com"
    ∧ (applyCookies [c8Cookie] 100).installed.map (fun k => k.domain) = [some "example.com"]
    ∧ jsStartsWith "example.com" "." = false
    ∧ ("example.com" : String) ≠ ".example.com" := by
  decide

/-- C8 (amended): a cookie surviving the partition and expiry filters
with a domain string is installed, and its domain gains a leading dot
exactly when the domain is non-empty, does not already start with `.`,
and contains `lmarena.ai`; any other domain is installed unchanged. -/
theorem loadSession_domain_normalization (cs : List Cookie) (now : Int) (c : Cookie)
    (d : String) (hc : c ∈ cs) (hp : c.partitionKey = false)
    (he : isExpired now c = false) (hd : c.domain = some d) :
    normalizeCookie c ∈ (applyCookies cs now).installed
    ∧ (d ≠ "" → jsStartsWith d "." = false → containsLmarena d = true →
        (normalizeCookie c).domain = some ("." ++ dropLeadingDots d))
    ∧ (jsStartsWith d "." = true ∨ containsLmarena d = false →
        (normalizeCookie c).domain = some d) := by
  refine ⟨mem_installed_of_valid cs now c hc hp he, ?_, ?_⟩
  · intro hne hs hcl
    simp [normalizeCookie, hd, hne, hs, hcl]
  · intro hdisj
    have hcond : ¬ ((d ≠ "" && !(jsStartsWith d ".") && containsLmarena d) = true) := by
      rcases hdisj with h | h <;> simp [h]
    unfold normalizeCookie
    rw [hd]
    dsimp only
    rw [if_neg hcond]
    simp [hd]

/-- Witness for C8 (amended): a `www.lmarena.ai` domain gains the
leading dot. -/
theorem loadSession_domain_normalization_witness :
    (normalizeCookie { name := "s", value := "x", domain := some "www.lmarena.ai" }).domain
      = some ("." ++ dropLeadingDots "www.lmarena.ai") :=
  (loadSession_domain_normalization
      [{ name := "s", value := "x", domain := some "www.lmarena.ai" }] 7
      { name := "s", value := "x", domain := some "www.lmarena.ai" } "www.lmarena.ai"
      (by decide) rfl (by decide) rfl).2.1 (by decide) (by decide) (by decide)

/-- C5: a session file that is the bare cookie array `C` loads exactly
as the full snapshot object `{cookies: C, localStorage: {}}`: same
parse result, same install outcome, same (empty) local-storage
replay. -/
theorem loadSession_bare_array_equiv (C : List Cookie) (now : Int) :
    parseSessionFile (.arr C) = parseSessionFile (.obj (some C) (some []) none)
    ∧ loadSession (.arr C) now = loadSession (.obj (some C) (some []) none) now :=
  ⟨rfl, rfl⟩

theorem wfrsGo_armed (polls : List PollObs) : ∀ (last : String) (count : Nat),
    last ≠ "" → 1 ≤ count →
    (wfrsGo polls last count).isSome = hasAdjDupFrom last (polls.filterMap latestEligible) := by
  induction polls with
  | nil => intro last count _ _; rfl
  | cons p rest ih =>
    intro last count h1 h2
    cases hg : getLatestAI p.messages with
    | none =>
      have hle : latestEligible p = none := by simp [latestEligible, hg]
      simp only [wfrsGo, hg, List.filterMap_cons, hle]
      exact ih last count h1 h2
    | some s =>
      cases hcond : (s ≠ "" && !p.streaming) with
      | false =>
        have hne : ¬ ((s ≠ "" && !p.streaming) = true) := by rw [hcond]; simp
        have hle : latestEligible p = none := by
          unfold latestEligible
          rw [hg]
          dsimp only
          rw [if_neg hne]
        simp only [wfrsGo, hg, hcond, List.filterMap_cons, hle, Bool.false_eq_true,
          if_false]
        exact ih last count h1 h2
      | true =>
        have hck := hcond
        simp only [Bool.and_eq_true, decide_eq_true_eq] at hck
        have hs0 : s ≠ "" := hck.1
        have hle : latestEligible p = some s := by
          simp [latestEligible, hg, hck.1, hck.2]
        simp only [wfrsGo, hg, hcond, List.filterMap_cons, hle, if_true]
        rw [hasAdjDupFrom]
        by_cases hs : s = last
        · rw [if_pos hs, if_pos (by omega)]
          simp [hs]
        · rw [if_neg hs, ih s 1 hs0 (le_refl 1)]
          have hls : ¬ (last = s) := fun h => hs h.symm
          simp [hls]

theorem wfrsGo_start (polls : List PollObs) :
    (wfrsGo polls "" 0).isSome = hasAdjDup (polls.filterMap latestEligible) := by
  induction polls with
  | nil => rfl
  | cons p rest ih =>
    cases hg : getLatestAI p.messages with
    | none =>
      have hle : latestEligible p = none := by simp [latestEligible, hg]
      simp only [wfrsGo, hg, List.filterMap_cons, hle]
      exact ih
    | some s =>
      cases hcond : (s ≠ "" && !p.streaming) with
      | false =>
        have hne : ¬ ((s ≠ "" && !p.streaming) = true) := by rw [hcond]; simp
        have hle : latestEligible p = none := by
          unfold latestEligible
          rw [hg]
          dsimp only
          rw [if_neg hne]
        simp only [wfrsGo, hg, hcond, List.filterMap_cons, hle, Bool.false_eq_true,
          if_false]
        exact ih
      | true =>
        have hck := hcond
        simp only [Bool.and_eq_true, decide_eq_true_eq] at hck
        have hs0 : s ≠ "" := hck.1
        have hle : latestEligible p = some s := by
          simp [latestEligible, hg, hck.1, hck.2]
        simp only [wfrsGo, hg, hcond, List.filterMap_cons, hle, if_true]
        rw [if_neg hs0, wfrsGo_armed rest s 1 hs0 (le_refl 1)]
        rfl

/-- C1 counterexample: on the trace `c1Polls` the loop returns early —
before the timeout, with transcript `["u", "alpha"]` rather than the
timeout extraction — although the latest-assistant text differs on
every pair of consecutive polls (`alpha`, `beta`, `alpha`), so no two
consecutive polls ever showed the same non-empty text with the
streaming signal false: the middle streaming poll is skipped without
resetting the stability counter. -/
theorem waitForResponseStable_counterexample :
    wfrsGo c1Polls "" 0 = some ["u", "alpha"]
    ∧ waitForResponseStable c1Polls ["timeout"] = ["u", "alpha"]
    ∧ hasConsecutiveStableB c1Polls = false
    ∧ c1Polls.map (fun p => getLatestAI p.messages)
        = [some "alpha", some "beta", some "alpha"]
    ∧ ("alpha" : String) ≠ "beta" := by
  decide

/-- C1 (amended): `waitForResponseStable` returns before its timeout
iff the same non-empty latest-assistant text is observed with the
streaming signal false on two consecutive *eligible* polls — polls
that are streaming or lack a non-empty latest text are skipped without
resetting stability — so a latest text that differs on every eligible
poll never causes an early return; and when the timeout elapses the
function returns the final transcript extraction instead of
throwing. -/
theorem waitForResponseStable_stability (polls : List PollObs) (finalMessages : List String) :
    (wfrsGo polls "" 0).isSome = hasAdjDup (polls.filterMap latestEligible)
    ∧ (hasAdjDup (polls.filterMap latestEligible) = false →
        waitForResponseStable polls finalMessages = finalMessages) := by
  refine ⟨wfrsGo_start polls, fun h => ?_⟩
  have h2 : (wfrsGo polls "" 0).isSome = false := by rw [wfrsGo_start polls, h]
  have h3 : wfrsGo polls "" 0 = none := by
    cases hw : wfrsGo polls "" 0
    · rfl
    · rw [hw] at h2
      simp at h2
  unfold waitForResponseStable
  rw [h3]

/-- Witness for C1 (amended): a trace whose two eligible polls carry
different texts times out and hands back the final extraction. -/
theorem waitForResponseStable_stability_witness :
    waitForResponseStable [⟨["u", "x"], false⟩, ⟨["u", "y"], false⟩] ["u", "z"]
      = ["u", "z"] :=
  (waitForResponseStable_stability [⟨["u", "x"], false⟩, ⟨["u", "y"], false⟩]
      ["u", "z"]).2 (by decide)
